import Mathlib

/-!
Shallow embedding of the creative-reporting core in `src/app.py`:
string normalization and fuzzy asset matching (`find_best_matching_image`),
metric aggregation (`calculate_metrics`), image fitting (`resize_image`),
grid placement, and the per-variant assembly loop of `create_ppt_from_data`.
Python floats are modelled as exact rationals; Python `int()` truncation on
the nonnegative quantities involved coincides with `Int.floor`. Character
classification (`isalnum`, `lower`) is modelled on the ASCII range covered by
the data in scope; asset keys are plain file names without path separators.
-/

/-- Python `''.join(c.lower() for c in s if c.isalnum())` on a character list. -/
def cleanChars (l : List Char) : List Char :=
  (l.filter Char.isAlphanum).map Char.toLower

/-- The inner `clean_string` helper of `find_best_matching_image`. -/
def clean_string (s : String) : List Char :=
  cleanChars s.toList

/-- Python `a.startswith`-style check: is `a` a prefix of `b`? -/
def isPrefixB : List Char → List Char → Bool
  | [], _ => true
  | _ :: _, [] => false
  | a :: as, b :: bs => a == b && isPrefixB as bs

/-- Python `a in b` on strings: contiguous-substring test (true for empty `a`). -/
def isInfixB (a : List Char) : List Char → Bool
  | [] => a.isEmpty
  | b :: bs => isPrefixB a (b :: bs) || isInfixB a bs

/-- Index of the last dot in the list, if any. -/
def lastDotIdx (s : List Char) : Option Nat :=
  ((List.range s.length).filter fun i => s.getD i ' ' == '.').getLast?

/-- Root part of `os.path.splitext` for a file name without path separators:
cut at the final dot unless every character before that dot is itself a dot. -/
def splitextRoot (s : List Char) : List Char :=
  match lastDotIdx s with
  | none => s
  | some i => if (s.take i).any (fun c => c != '.') then s.take i else s

/-- Normalized asset key: `clean_string(os.path.splitext(img_name)[0])`. -/
def cleanKeyOf (imgName : String) : List Char :=
  cleanChars (splitextRoot imgName.toList)

/-- Python `s.split()`: split on whitespace runs, dropping empty chunks. -/
def pySplit (s : List Char) : List (List Char) :=
  (s.splitOnP fun c => c.isWhitespace).filter (fun w => w ≠ [])

/-- Per-pair similarity inside `find_best_matching_image`: the substring rule
(`0.8`), the word-overlap rule, then the character-Jaccard fallback. -/
def similarity (cleanVariant cleanKey : List Char) : ℚ :=
  if isInfixB cleanKey cleanVariant || isInfixB cleanVariant cleanKey then 4/5
  else
    let variantWords := (pySplit cleanVariant).toFinset
    let imgWords := (pySplit cleanKey).toFinset
    let commonWords := variantWords ∩ imgWords
    if 0 < commonWords.card then
      (commonWords.card : ℚ) / ((max variantWords.card imgWords.card : Nat) : ℚ)
    else
      ((cleanKey.toFinset ∩ cleanVariant.toFinset).card : ℚ) /
        (((cleanKey ++ cleanVariant).toFinset).card : ℚ)

/-- Similarity of a cleaned variant name against a raw asset file name. -/
def simOf (cleanVariant : List Char) (imgName : String) : ℚ :=
  similarity cleanVariant (cleanKeyOf imgName)

/-- The tracking loop of `find_best_matching_image`: a later key replaces the
current best only on strictly greater similarity. -/
def bestMatchAux (cleanVariant : List Char) :
    List String → Option String × ℚ → Option String × ℚ
  | [], acc => acc
  | imgName :: rest, (best, highest) =>
    let s := simOf cleanVariant imgName
    if highest < s then bestMatchAux cleanVariant rest (some imgName, s)
    else bestMatchAux cleanVariant rest (best, highest)

/-- `find_best_matching_image(variant_name, image_files, similarity_threshold)`.
The call sites in `create_ppt_from_data` use the default threshold `0.6`. -/
def find_best_matching_image (variantName : String) (imageFiles : List String)
    (similarityThreshold : ℚ) : Option String × ℚ :=
  let r := bestMatchAux (clean_string variantName) imageFiles (none, 0)
  if similarityThreshold ≤ r.2 then r else (none, 0)

/-- Highest similarity over a key list (`0` for the empty list), i.e. the final
value of the loop's `highest_similarity` accumulator. -/
def maxSim (cleanVariant : List Char) (imageFiles : List String) : ℚ :=
  (imageFiles.map (simOf cleanVariant)).foldr max 0

/-- Final value of the loop's `best_match` accumulator. -/
def bestTracked (variantName : String) (imageFiles : List String) : Option String :=
  (bestMatchAux (clean_string variantName) imageFiles (none, 0)).1

/-- The two report kinds: `"CTR Report"` and the `else` branch (`"VCR Report"`). -/
inductive ReportType
  | ctr
  | vcr
deriving DecidableEq

/-- One dataset row; the numeric columns used by either report kind. -/
structure Row where
  variant : String
  clickThroughs : Nat
  impressions : Nat
  videoStart : Nat
  videoComplete : Nat
deriving DecidableEq

/-- `calculate_metrics(df, variant, report_type)` from `src/app.py`. -/
def calculate_metrics (df : List Row) (variant : String) (reportType : ReportType) :
    Nat × Nat × ℚ :=
  let variantData := df.filter fun r => r.variant == variant
  match reportType with
  | .ctr =>
    let totalClicks := (variantData.map Row.clickThroughs).sum
    let totalImpressions := (variantData.map Row.impressions).sum
    let rate : ℚ :=
      if 0 < totalImpressions then (totalClicks : ℚ) / (totalImpressions : ℚ) else 0
    (totalClicks, totalImpressions, rate)
  | .vcr =>
    let videoStarts := (variantData.map Row.videoStart).sum
    let videoCompletes := (variantData.map Row.videoComplete).sum
    let vcrRate : ℚ :=
      if 0 < videoStarts then (videoCompletes : ℚ) / (videoStarts : ℚ) else 0
    (videoStarts, videoCompletes, vcrRate)

/-- Sum of `Click-throughs` over the rows of one variant. -/
def sumClicks (df : List Row) (v : String) : Nat :=
  ((df.filter fun r => r.variant == v).map Row.clickThroughs).sum

/-- Sum of `Impressions` over the rows of one variant. -/
def sumImpressions (df : List Row) (v : String) : Nat :=
  ((df.filter fun r => r.variant == v).map Row.impressions).sum

/-- Sum of `Video start` over the rows of one variant. -/
def sumStarts (df : List Row) (v : String) : Nat :=
  ((df.filter fun r => r.variant == v).map Row.videoStart).sum

/-- Sum of `Video complete` over the rows of one variant. -/
def sumCompletes (df : List Row) (v : String) : Nat :=
  ((df.filter fun r => r.variant == v).map Row.videoComplete).sum

/-- `resize_image(img, max_width, max_height)`: scale only when a dimension
exceeds its bound, branching on whether the aspect ratio exceeds `1`. -/
def resize_image (width height maxWidth maxHeight : Nat) : Nat × Nat :=
  if maxWidth < width ∨ maxHeight < height then
    if 1 < (width : ℚ) / (height : ℚ) then
      (maxWidth, (⌊(maxWidth : ℚ) / ((width : ℚ) / (height : ℚ))⌋).toNat)
    else
      ((⌊(maxHeight : ℚ) * ((width : ℚ) / (height : ℚ))⌋).toNat, maxHeight)
  else (width, height)

/-- Grid placement computed at the top of the per-variant loop of
`create_ppt_from_data`: `row = index // items_per_row`, `col = index % items_per_row`. -/
def grid_position (index itemsPerRow : Nat)
    (leftMargin topMargin spacingX spacingY : ℚ) : ℚ × ℚ :=
  (leftMargin + ((index % itemsPerRow : Nat) : ℚ) * spacingX,
   topMargin + ((index / itemsPerRow : Nat) : ℚ) * spacingY)

/-- `top_margin` per report kind (inches): `1.0` for CTR, `1.8` for VCR. -/
def top_margin : ReportType → ℚ
  | .ctr => 1
  | .vcr => 9/5

/-- `spacing_x` per report kind (inches): `3 + 2` for CTR, `3 + 1` for VCR. -/
def spacing_x : ReportType → ℚ
  | .ctr => 5
  | .vcr => 4

/-- `spacing_y` per report kind (inches): `2.8` for both. -/
def spacing_y : ReportType → ℚ
  | .ctr => 14/5
  | .vcr => 14/5

/-- Natural pixel size of a decoded image (`img.size` in PIL order). -/
structure ImgSize where
  width : Nat
  height : Nat
deriving DecidableEq

/-- `pandas.Series.unique`: distinct values in first-appearance order. -/
def uniqueFirst (l : List String) : List String :=
  l.foldl (fun acc a => if a ∈ acc then acc else acc ++ [a]) []

/-- One report entry: variant, optionally matched asset key, the metric triple
and the grid position of the cell. -/
structure ReportEntry where
  variant : String
  asset : Option String
  metrics : Nat × Nat × ℚ
  position : ℚ × ℚ
deriving DecidableEq

/-- State update for the Python local `image_height` in one iteration of the
loop of `create_ppt_from_data`: it is (re)assigned only when `matched_image`
is truthy (a non-empty key), to the resized pixel height of the looked-up
image; otherwise the previous state (possibly still unassigned) persists. -/
def nextImageHeight (images : List (String × ImgSize)) (matched : Option String)
    (imageHeight : Option Nat) : Option Nat :=
  match matched with
  | some k =>
    if k.isEmpty then imageHeight
    else
      match List.lookup k images with
      | some img => some (resize_image img.width img.height 220 180).2
      | none => imageHeight
  | none => imageHeight

/-- Body of the per-variant loop of `create_ppt_from_data`. The Python local
`image_height` is assigned only inside the `if matched_image:` block, so it is
threaded here as `Option Nat` state; the line
`text_top = top + image_height + Inches(0.1)` reads it even when no image
matched, and while it is still unassigned that read raises `UnboundLocalError`
inside the per-variant `try`, so that variant produces no entry. -/
def entriesLoop (df : List Row) (images : List (String × ImgSize)) (rt : ReportType) :
    Nat → Option Nat → List String → List ReportEntry
  | _, _, [] => []
  | index, imageHeight, v :: rest =>
    match nextImageHeight images
        (find_best_matching_image v (images.map Prod.fst) (3/5)).1 imageHeight with
    | none => entriesLoop df images rt (index + 1) none rest
    | some hpx =>
      { variant := v
        asset := (find_best_matching_image v (images.map Prod.fst) (3/5)).1
        metrics := calculate_metrics df v rt
        position := grid_position index 2 1 (top_margin rt) (spacing_x rt) (spacing_y rt) } ::
        entriesLoop df images rt (index + 1) (some hpx) rest

/-- The entry-producing skeleton of `create_ppt_from_data(df, images_dict, report_type)`:
one pass over `df['Variant'].unique()` with the `image_height` state initially
unassigned. -/
def create_ppt_entries (df : List Row) (images : List (String × ImgSize))
    (rt : ReportType) : List ReportEntry :=
  entriesLoop df images rt 0 none (uniqueFirst (df.map Row.variant))

/-! Basic lemmas about the matcher loop. -/

theorem similarity_substring (v k : List Char)
    (h : (isInfixB k v || isInfixB v k) = true) : similarity v k = 4/5 := by
  simp [similarity, h]

theorem similarity_chars (v k : List Char)
    (h : (isInfixB k v || isInfixB v k) = false)
    (h2 : ((pySplit v).toFinset ∩ (pySplit k).toFinset).card = 0) :
    similarity v k
      = ((k.toFinset ∩ v.toFinset).card : ℚ) / (((k ++ v).toFinset).card : ℚ) := by
  simp [similarity, h, h2]

theorem bestMatchAux_nil (cv : List Char) (acc : Option String × ℚ) :
    bestMatchAux cv [] acc = acc := rfl

theorem bestMatchAux_cons (cv : List Char) (n : String) (rest : List String)
    (b : Option String) (h : ℚ) :
    bestMatchAux cv (n :: rest) (b, h) =
      if h < simOf cv n then bestMatchAux cv rest (some n, simOf cv n)
      else bestMatchAux cv rest (b, h) := rfl

theorem maxSim_nil (cv : List Char) : maxSim cv [] = 0 := rfl

theorem maxSim_cons (cv : List Char) (n : String) (rest : List String) :
    maxSim cv (n :: rest) = max (simOf cv n) (maxSim cv rest) := rfl

theorem simOf_nonneg (cv : List Char) (n : String) : 0 ≤ simOf cv n := by
  unfold simOf similarity
  split
  · norm_num
  · dsimp only
    split
    · positivity
    · positivity

theorem maxSim_nonneg (cv : List Char) (files : List String) : 0 ≤ maxSim cv files := by
  induction files with
  | nil => simp [maxSim]
  | cons n rest ih => rw [maxSim_cons]; exact le_max_of_le_right ih

theorem bestMatchAux_snd (cv : List Char) :
    ∀ (files : List String) (b : Option String) (h : ℚ), 0 ≤ h →
      (bestMatchAux cv files (b, h)).2 = max h (maxSim cv files) := by
  intro files
  induction files with
  | nil =>
    intro b h hh
    simp [bestMatchAux, maxSim, max_eq_left hh]
  | cons n rest ih =>
    intro b h hh
    rw [bestMatchAux_cons, maxSim_cons]
    by_cases hc : h < simOf cv n
    · rw [if_pos hc, ih _ _ (le_trans hh hc.le)]
      exact (max_eq_right (le_trans hc.le (le_max_left _ _))).symm
    · push_neg at hc
      rw [if_neg (not_lt.mpr hc), ih _ _ hh, ← max_assoc, max_eq_left hc]

theorem bestMatchAux_fst_stay (cv : List Char) :
    ∀ (files : List String) (b : Option String) (h : ℚ),
      maxSim cv files ≤ h → (bestMatchAux cv files (b, h)).1 = b := by
  intro files
  induction files with
  | nil => intro b h _; rfl
  | cons n rest ih =>
    intro b h hm
    rw [maxSim_cons, max_le_iff] at hm
    rw [bestMatchAux_cons, if_neg (not_lt.mpr hm.1)]
    exact ih _ _ hm.2

theorem bestMatchAux_fst_find (cv : List Char) :
    ∀ (files : List String) (b : Option String) (h : ℚ), 0 ≤ h →
      h < maxSim cv files →
      (bestMatchAux cv files (b, h)).1
        = files.find? (fun n => decide (simOf cv n = maxSim cv files)) := by
  intro files
  induction files with
  | nil =>
    intro b h hh hlt
    rw [maxSim_nil] at hlt
    exact absurd hlt (not_lt.mpr hh)
  | cons n rest ih =>
    intro b h hh hlt
    rw [bestMatchAux_cons]
    by_cases hc : h < simOf cv n
    · rw [if_pos hc]
      by_cases hms : maxSim cv rest ≤ simOf cv n
      · have hmax : maxSim cv (n :: rest) = simOf cv n := by
          rw [maxSim_cons]; exact max_eq_left hms
        rw [hmax, bestMatchAux_fst_stay cv rest (some n) (simOf cv n) hms]
        exact (List.find?_cons_of_pos _ (by simp)).symm
      · push_neg at hms
        have hmax : maxSim cv (n :: rest) = maxSim cv rest := by
          rw [maxSim_cons]; exact max_eq_right hms.le
        rw [hmax, ih (some n) (simOf cv n) (simOf_nonneg cv n) hms,
          List.find?_cons_of_neg _ (by simp [ne_of_lt hms])]
    · push_neg at hc
      rw [if_neg (not_lt.mpr hc)]
      have hltr : h < maxSim cv rest := by
        rw [maxSim_cons] at hlt
        rcases max_cases (simOf cv n) (maxSim cv rest) with ⟨he, _⟩ | ⟨he, _⟩
        · rw [he] at hlt; exact absurd hlt (not_lt.mpr hc)
        · rwa [he] at hlt
      have hmax : maxSim cv (n :: rest) = maxSim cv rest := by
        rw [maxSim_cons]; exact max_eq_right (le_trans hc hltr.le)
      have hne : simOf cv n ≠ maxSim cv rest := ne_of_lt (lt_of_le_of_lt hc hltr)
      rw [hmax, ih b h hh hltr, List.find?_cons_of_neg _ (by simp [hne])]

/-- `find_best_matching_image` in terms of the loop accumulators. -/
theorem find_best_eq (v : String) (files : List String) (t : ℚ) :
    find_best_matching_image v files t =
      if t ≤ maxSim (clean_string v) files
      then (bestTracked v files, maxSim (clean_string v) files)
      else (none, 0) := by
  have h2 : (bestMatchAux (clean_string v) files (none, 0)).2
      = maxSim (clean_string v) files := by
    rw [bestMatchAux_snd (clean_string v) files none 0 le_rfl]
    exact max_eq_right (maxSim_nonneg _ _)
  have heta : bestMatchAux (clean_string v) files (none, 0)
      = ((bestMatchAux (clean_string v) files (none, 0)).1,
         (bestMatchAux (clean_string v) files (none, 0)).2) := rfl
  show (if t ≤ (bestMatchAux (clean_string v) files (none, 0)).2
      then bestMatchAux (clean_string v) files (none, 0) else (none, 0)) = _
  rw [h2, heta, h2]
  rfl

/-! Generic list-level helper lemmas. -/

theorem maxSim_append (cv : List Char) (l1 l2 : List String) :
    maxSim cv (l1 ++ l2) = max (maxSim cv l1) (maxSim cv l2) := by
  induction l1 with
  | nil =>
    rw [List.nil_append, maxSim_nil]
    exact (max_eq_right (maxSim_nonneg _ _)).symm
  | cons n rest ih =>
    rw [List.cons_append, maxSim_cons, ih, maxSim_cons, max_assoc]

theorem maxSim_le_of_forall (cv : List Char) (files : List String) (c : ℚ)
    (hc : 0 ≤ c) (h : ∀ n ∈ files, simOf cv n ≤ c) : maxSim cv files ≤ c := by
  induction files with
  | nil => rw [maxSim_nil]; exact hc
  | cons n rest ih =>
    rw [maxSim_cons]
    exact max_le (h n (List.mem_cons_self n rest))
      (ih fun m hm => h m (List.mem_cons_of_mem n hm))

theorem find?_append_false {α : Type} (p : α → Bool) :
    ∀ (l1 l2 : List α), (∀ a ∈ l1, p a = false) →
      (l1 ++ l2).find? p = l2.find? p := by
  intro l1
  induction l1 with
  | nil => intro l2 _; rfl
  | cons a l ih =>
    intro l2 h
    rw [List.cons_append,
      List.find?_cons_of_neg _ (by simp [h a (List.mem_cons_self a l)])]
    exact ih l2 fun b hb => h b (List.mem_cons_of_mem a hb)

theorem isInfixB_nil_left (l : List Char) : isInfixB [] l = true := by
  cases l with
  | nil => rfl
  | cons b bs => simp [isInfixB, isPrefixB]

/-! Concrete evaluations shared by witnesses and counterexamples. -/

theorem find_best_nil (v : String) :
    find_best_matching_image v [] (3/5) = (none, 0) := by
  rw [find_best_eq, maxSim_nil, if_neg (by norm_num : ¬ (3/5 : ℚ) ≤ 0)]

theorem simOf_abcd_eadbc : simOf (clean_string "abcd") "eadbc" = 4/5 := by
  unfold simOf
  rw [similarity_chars _ _ (by decide) (by decide),
    show ((cleanKeyOf "eadbc").toFinset ∩ (clean_string "abcd").toFinset).card = 4
      from by decide,
    show (((cleanKeyOf "eadbc") ++ (clean_string "abcd")).toFinset).card = 5
      from by decide]
  norm_num

theorem simOf_abcd_abcd : simOf (clean_string "abcd") "abcd" = 4/5 := by
  unfold simOf
  exact similarity_substring _ _ (by decide)

theorem simOf_ab_ab : simOf (clean_string "ab") "ab" = 4/5 := by
  unfold simOf
  exact similarity_substring _ _ (by decide)

theorem simOf_ab_cd : simOf (clean_string "ab") "cd" = 0 := by
  unfold simOf
  rw [similarity_chars _ _ (by decide) (by decide),
    show ((cleanKeyOf "cd").toFinset ∩ (clean_string "ab").toFinset).card = 0
      from by decide,
    show (((cleanKeyOf "cd") ++ (clean_string "ab")).toFinset).card = 4
      from by decide]
  norm_num

theorem simOf_A_a : simOf (clean_string "A") "a" = 4/5 := by
  unfold simOf
  exact similarity_substring _ _ (by decide)

theorem simOf_B_a : simOf (clean_string "B") "a" = 0 := by
  unfold simOf
  rw [similarity_chars _ _ (by decide) (by decide),
    show ((cleanKeyOf "a").toFinset ∩ (clean_string "B").toFinset).card = 0
      from by decide,
    show (((cleanKeyOf "a") ++ (clean_string "B")).toFinset).card = 2
      from by decide]
  norm_num

theorem maxSim_ab_ab : maxSim (clean_string "ab") ["ab"] = 4/5 := by
  rw [maxSim_cons, maxSim_nil, simOf_ab_ab,
    show max (4/5 : ℚ) 0 = 4/5 from max_eq_left (by norm_num)]

theorem maxSim_ab_cd : maxSim (clean_string "ab") ["cd"] = 0 := by
  rw [maxSim_cons, maxSim_nil, simOf_ab_cd, max_self]

theorem maxSim_ab_cd_ab : maxSim (clean_string "ab") ["cd", "ab"] = 4/5 := by
  rw [maxSim_cons, maxSim_cons, maxSim_nil, simOf_ab_cd, simOf_ab_ab,
    show max (4/5 : ℚ) 0 = 4/5 from max_eq_left (by norm_num),
    show max (0 : ℚ) (4/5) = 4/5 from max_eq_right (by norm_num)]

theorem maxSim_abcd_pair : maxSim (clean_string "abcd") ["eadbc", "abcd"] = 4/5 := by
  rw [maxSim_cons, maxSim_cons, maxSim_nil, simOf_abcd_eadbc, simOf_abcd_abcd,
    show max (4/5 : ℚ) 0 = 4/5 from max_eq_left (by norm_num), max_self]

theorem maxSim_A_a : maxSim (clean_string "A") ["a"] = 4/5 := by
  rw [maxSim_cons, maxSim_nil, simOf_A_a,
    show max (4/5 : ℚ) 0 = 4/5 from max_eq_left (by norm_num)]

theorem maxSim_B_a : maxSim (clean_string "B") ["a"] = 0 := by
  rw [maxSim_cons, maxSim_nil, simOf_B_a, max_self]

theorem bestTracked_abcd_pair : bestTracked "abcd" ["eadbc", "abcd"] = some "eadbc" := by
  unfold bestTracked
  rw [bestMatchAux_cons, simOf_abcd_eadbc, if_pos (by norm_num : (0 : ℚ) < 4/5),
    bestMatchAux_cons, simOf_abcd_abcd, if_neg (by norm_num : ¬ (4/5 : ℚ) < 4/5),
    bestMatchAux_nil]

theorem bestTracked_ab_ab : bestTracked "ab" ["ab"] = some "ab" := by
  unfold bestTracked
  rw [bestMatchAux_cons, simOf_ab_ab, if_pos (by norm_num : (0 : ℚ) < 4/5),
    bestMatchAux_nil]

theorem bestTracked_A_a : bestTracked "A" ["a"] = some "a" := by
  unfold bestTracked
  rw [bestMatchAux_cons, simOf_A_a, if_pos (by norm_num : (0 : ℚ) < 4/5),
    bestMatchAux_nil]

theorem find_best_abcd_pair :
    find_best_matching_image "abcd" ["eadbc", "abcd"] (3/5) = (some "eadbc", 4/5) := by
  rw [find_best_eq, maxSim_abcd_pair, if_pos (by norm_num : (3/5 : ℚ) ≤ 4/5),
    bestTracked_abcd_pair]

theorem find_best_A_a :
    find_best_matching_image "A" ["a"] (3/5) = (some "a", 4/5) := by
  rw [find_best_eq, maxSim_A_a, if_pos (by norm_num : (3/5 : ℚ) ≤ 4/5),
    bestTracked_A_a]

theorem find_best_B_a :
    find_best_matching_image "B" ["a"] (3/5) = (none, 0) := by
  rw [find_best_eq, maxSim_B_a, if_neg (by norm_num : ¬ (3/5 : ℚ) ≤ 0)]

/-! Evaluations of the resize function. -/

theorem resize_300_290 : resize_image 300 290 220 180 = (220, 212) := by
  have hf : ⌊((220 : Nat) : ℚ) / (((300 : Nat) : ℚ) / ((290 : Nat) : ℚ))⌋ = (212 : ℤ) :=
    Int.floor_eq_iff.mpr (by norm_num)
  unfold resize_image
  rw [if_pos (Or.inl (by norm_num) : (220 : Nat) < 300 ∨ (180 : Nat) < 290),
    if_pos (by norm_num : (1 : ℚ) < ((300 : Nat) : ℚ) / ((290 : Nat) : ℚ)), hf]
  rfl

theorem resize_100_10 : resize_image 100 10 220 5 = (220, 22) := by
  have hf : ⌊((220 : Nat) : ℚ) / (((100 : Nat) : ℚ) / ((10 : Nat) : ℚ))⌋ = (22 : ℤ) :=
    Int.floor_eq_iff.mpr (by norm_num)
  unfold resize_image
  rw [if_pos (Or.inr (by norm_num) : (220 : Nat) < 100 ∨ (5 : Nat) < 10),
    if_pos (by norm_num : (1 : ℚ) < ((100 : Nat) : ℚ) / ((10 : Nat) : ℚ)), hf]
  rfl

theorem resize_100_100 : resize_image 100 100 220 180 = (100, 100) := by
  unfold resize_image
  rw [if_neg (by push_neg; exact ⟨by norm_num, by norm_num⟩ :
    ¬ ((220 : Nat) < 100 ∨ (180 : Nat) < 100))]

/-! Helper lemmas for the assembly loop. -/

theorem nextImageHeight_none (images : List (String × ImgSize)) (ih : Option Nat) :
    nextImageHeight images none ih = ih := rfl

theorem nextImageHeight_matched (images : List (String × ImgSize)) (k : String)
    (img : ImgSize) (ih : Option Nat) (hk : k.isEmpty = false)
    (hl : List.lookup k images = some img) :
    nextImageHeight images (some k) ih
      = some (resize_image img.width img.height 220 180).2 := by
  unfold nextImageHeight
  dsimp only
  rw [if_neg (by rw [hk]; exact Bool.false_ne_true), hl]

theorem create_ppt_entries_empty_images (df : List Row) (rt : ReportType) :
    create_ppt_entries df [] rt = [] := by
  have key : ∀ (l : List String) (index : Nat),
      entriesLoop df [] rt index none l = [] := by
    intro l
    induction l with
    | nil => intro index; rfl
    | cons v rest ih =>
      intro index
      have hfb : (find_best_matching_image v
          (List.map Prod.fst ([] : List (String × ImgSize))) (3/5)).1 = none := by
        rw [show List.map Prod.fst ([] : List (String × ImgSize)) = [] from rfl,
          find_best_nil]
      simp only [entriesLoop]
      rw [hfb]
      exact ih (index + 1)
  exact key _ 0

/-- C2: `calculate_metrics` returns rate `0` whenever the relevant denominator
sum (impressions for a CTR report, video starts for a VCR report) is `0`,
regardless of the numerator, and returns the exact quotient of the sums when
the denominator is positive. Division is total here, matching the guarded
Python expression that never divides by zero. -/
theorem claim_c2_rate_zero_denominator (df : List Row) (v : String) :
    (sumImpressions df v = 0 → (calculate_metrics df v .ctr).2.2 = 0) ∧
    (0 < sumImpressions df v →
      (calculate_metrics df v .ctr).2.2
        = (sumClicks df v : ℚ) / (sumImpressions df v : ℚ)) ∧
    (sumStarts df v = 0 → (calculate_metrics df v .vcr).2.2 = 0) ∧
    (0 < sumStarts df v →
      (calculate_metrics df v .vcr).2.2
        = (sumCompletes df v : ℚ) / (sumStarts df v : ℚ)) := by
  have hctr : (calculate_metrics df v .ctr).2.2
      = if 0 < sumImpressions df v
        then (sumClicks df v : ℚ) / (sumImpressions df v : ℚ) else 0 := rfl
  have hvcr : (calculate_metrics df v .vcr).2.2
      = if 0 < sumStarts df v
        then (sumCompletes df v : ℚ) / (sumStarts df v : ℚ) else 0 := rfl
  refine ⟨?_, ?_, ?_, ?_⟩
  · intro h; rw [hctr, if_neg (by rw [h]; exact lt_irrefl 0)]
  · intro h; rw [hctr, if_pos h]
  · intro h; rw [hvcr, if_neg (by rw [h]; exact lt_irrefl 0)]
  · intro h; rw [hvcr, if_pos h]

/-- Witness for C2: the empty dataset has zero denominators and rate `0` for
both report kinds; a one-row dataset with positive denominators yields the
exact quotients. -/
theorem claim_c2_witness :
    (calculate_metrics [] "A" .ctr).2.2 = 0 ∧
    (calculate_metrics [] "A" .vcr).2.2 = 0 ∧
    (calculate_metrics [⟨"A", 150, 10000, 20, 10⟩] "A" .ctr).2.2
      = (sumClicks [⟨"A", 150, 10000, 20, 10⟩] "A" : ℚ)
        / (sumImpressions [⟨"A", 150, 10000, 20, 10⟩] "A" : ℚ) ∧
    (calculate_metrics [⟨"A", 150, 10000, 20, 10⟩] "A" .vcr).2.2
      = (sumCompletes [⟨"A", 150, 10000, 20, 10⟩] "A" : ℚ)
        / (sumStarts [⟨"A", 150, 10000, 20, 10⟩] "A" : ℚ) :=
  ⟨(claim_c2_rate_zero_denominator [] "A").1 (by decide),
   (claim_c2_rate_zero_denominator [] "A").2.2.1 (by decide),
   (claim_c2_rate_zero_denominator [⟨"A", 150, 10000, 20, 10⟩] "A").2.1 (by decide),
   (claim_c2_rate_zero_denominator [⟨"A", 150, 10000, 20, 10⟩] "A").2.2.2 (by decide)⟩

/-- C3 (amended): a normalized-substring pair is assigned similarity exactly
`0.8`, skipping the word-overlap and character-overlap rules, and such a key is
the one returned whenever every key before it scores strictly below `0.8` and
every other key scores at most `0.8`. (The original claim, with only "no other
key scores strictly higher", fails when an earlier key ties at `0.8`; see the
counterexample.) -/
theorem claim_c3_substring_rule (v k : String) (pre post : List String)
    (hsub : (isInfixB (cleanKeyOf k) (clean_string v)
        || isInfixB (clean_string v) (cleanKeyOf k)) = true)
    (hpre : ∀ n ∈ pre, simOf (clean_string v) n < 4/5)
    (hpost : ∀ n ∈ post, simOf (clean_string v) n ≤ 4/5) :
    simOf (clean_string v) k = 4/5 ∧
    find_best_matching_image v (pre ++ k :: post) (3/5) = (some k, 4/5) := by
  have hk : simOf (clean_string v) k = 4/5 := by
    unfold simOf; exact similarity_substring _ _ hsub
  have hmaxpre : maxSim (clean_string v) pre ≤ 4/5 :=
    maxSim_le_of_forall _ _ _ (by norm_num) fun n hn => (hpre n hn).le
  have hmaxpost : maxSim (clean_string v) post ≤ 4/5 :=
    maxSim_le_of_forall _ _ _ (by norm_num) hpost
  have hmax : maxSim (clean_string v) (pre ++ k :: post) = 4/5 := by
    rw [maxSim_append, maxSim_cons, hk, max_eq_left hmaxpost, max_eq_right hmaxpre]
  have hfind : (pre ++ k :: post).find?
      (fun n => decide (simOf (clean_string v) n = 4/5)) = some k := by
    rw [find?_append_false _ pre _ (fun n hn => decide_eq_false (ne_of_lt (hpre n hn))),
      List.find?_cons_of_pos _ (by simp only [hk, decide_eq_true_eq])]
  refine ⟨hk, ?_⟩
  rw [find_best_eq, hmax, if_pos (by norm_num : (3/5 : ℚ) ≤ 4/5)]
  unfold bestTracked
  rw [bestMatchAux_fst_find (clean_string v) _ none 0 le_rfl (by rw [hmax]; norm_num),
    hmax, hfind]

/-- Witness for C3: the spec's own example, `match("Holiday_Banner",
["holidaybanner"]) == ("holidaybanner", 0.8)`. -/
theorem claim_c3_witness :
    simOf (clean_string "Holiday_Banner") "holidaybanner" = 4/5 ∧
    find_best_matching_image "Holiday_Banner" ["holidaybanner"] (3/5)
      = (some "holidaybanner", 4/5) :=
  claim_c3_substring_rule "Holiday_Banner" "holidaybanner" [] [] (by decide)
    (fun n hn => absurd hn (List.not_mem_nil n))
    (fun n hn => absurd hn (List.not_mem_nil n))

/-- Counterexample to C3 as stated: `"abcd"` is a substring key for variant
`"abcd"`, no other key scores strictly higher than its `0.8` (the key
`"eadbc"` scores exactly `0.8` via the character-Jaccard rule), yet the
returned key is the earlier `"eadbc"`, not the substring key. -/
theorem claim_c3_counterexample :
    (isInfixB (cleanKeyOf "abcd") (clean_string "abcd")
      || isInfixB (clean_string "abcd") (cleanKeyOf "abcd")) = true ∧
    simOf (clean_string "abcd") "eadbc" ≤ 4/5 ∧
    find_best_matching_image "abcd" ["eadbc", "abcd"] (3/5) = (some "eadbc", 4/5) ∧
    "eadbc" ≠ "abcd" :=
  ⟨by decide, le_of_eq simOf_abcd_eadbc, find_best_abcd_pair, by decide⟩

/-- C4: `find_best_matching_image` returns the tracked best pair when the best
similarity reaches the threshold, exactly `(none, 0)` otherwise, and always
`(none, 0)` on an empty key list. -/
theorem claim_c4_threshold_gate (v : String) (files : List String) (t : ℚ) :
    (t ≤ maxSim (clean_string v) files →
      find_best_matching_image v files t
        = (bestTracked v files, maxSim (clean_string v) files)) ∧
    (maxSim (clean_string v) files < t →
      find_best_matching_image v files t = (none, 0)) ∧
    find_best_matching_image v [] t = (none, 0) := by
  refine ⟨fun h => by rw [find_best_eq, if_pos h],
    fun h => by rw [find_best_eq, if_neg (not_le.mpr h)], ?_⟩
  rw [find_best_eq, maxSim_nil]
  rcases le_or_lt t 0 with h | h
  · rw [if_pos h]; rfl
  · rw [if_neg (not_le.mpr h)]

/-- Witness for C4: an above-threshold match is returned with its score; a
below-threshold best yields `(none, 0)`. -/
theorem claim_c4_witness :
    find_best_matching_image "ab" ["ab"] (3/5) = (some "ab", 4/5) ∧
    find_best_matching_image "ab" ["cd"] (3/5) = (none, 0) := by
  constructor
  · have h := (claim_c4_threshold_gate "ab" ["ab"] (3/5)).1
      (by rw [maxSim_ab_ab]; norm_num)
    rw [h, bestTracked_ab_ab, maxSim_ab_ab]
  · exact (claim_c4_threshold_gate "ab" ["cd"] (3/5)).2.1
      (by rw [maxSim_ab_cd]; norm_num)

/-- C8: a later key replaces the current best only on strictly greater
similarity, so when the best similarity is positive the tracked best is the
first key attaining the maximal similarity. -/
theorem claim_c8_first_seen_max (v : String) (files : List String)
    (hpos : 0 < maxSim (clean_string v) files) :
    (∀ (b : Option String) (h : ℚ) (n : String) (rest : List String),
        simOf (clean_string v) n ≤ h →
        (bestMatchAux (clean_string v) (n :: rest) (b, h)).1
          = (bestMatchAux (clean_string v) rest (b, h)).1) ∧
    bestTracked v files
      = files.find? fun n =>
          decide (simOf (clean_string v) n = maxSim (clean_string v) files) := by
  refine ⟨fun b h n rest hle => by rw [bestMatchAux_cons, if_neg (not_lt.mpr hle)], ?_⟩
  unfold bestTracked
  exact bestMatchAux_fst_find (clean_string v) files none 0 le_rfl hpos

/-- Witness for C8: with keys `["cd", "ab"]` for variant `"ab"`, the maximal
similarity `0.8` is attained first by `"ab"`, which is returned. -/
theorem claim_c8_witness : bestTracked "ab" ["cd", "ab"] = some "ab" := by
  have h := (claim_c8_first_seen_max "ab" ["cd", "ab"]
    (by rw [maxSim_ab_cd_ab]; norm_num)).2
  rw [h, maxSim_ab_cd_ab,
    List.find?_cons_of_neg _ (by simp only [simOf_ab_cd, decide_eq_true_eq]; norm_num),
    List.find?_cons_of_pos _ (by simp only [simOf_ab_ab, decide_eq_true_eq])]

/-- C10: when the substring rule does not fire, both normalized strings are
non-empty (the empty string is a substring of every string), so the
character-Jaccard denominator `|chars(asset) ∪ chars(variant)|` is strictly
positive and the fallback never divides by zero. -/
theorem claim_c10_jaccard_denominator_positive (v imgName : String)
    (hnot : (isInfixB (cleanKeyOf imgName) (clean_string v)
        || isInfixB (clean_string v) (cleanKeyOf imgName)) = false) :
    cleanKeyOf imgName ≠ [] ∧ clean_string v ≠ [] ∧
    0 < (((cleanKeyOf imgName) ++ (clean_string v)).toFinset).card := by
  have hk : cleanKeyOf imgName ≠ [] := by
    intro he
    rw [he, isInfixB_nil_left] at hnot
    simp at hnot
  have hv : clean_string v ≠ [] := by
    intro he
    rw [he, isInfixB_nil_left] at hnot
    simp at hnot
  refine ⟨hk, hv, ?_⟩
  obtain ⟨a, as, he⟩ := List.exists_cons_of_ne_nil hk
  apply Finset.card_pos.mpr
  exact ⟨a, by
    rw [List.mem_toFinset, he]
    exact List.mem_append_left _ (List.mem_cons_self a as)⟩

/-- Witness for C10 at a concrete non-substring pair. -/
theorem claim_c10_witness :
    cleanKeyOf "cd" ≠ [] ∧ clean_string "ab" ≠ [] ∧
    0 < (((cleanKeyOf "cd") ++ (clean_string "ab")).toFinset).card :=
  claim_c10_jaccard_denominator_positive "ab" "cd" (by decide)

/-- C5 (amended): `resize_image` returns the natural size unchanged when it
already fits both bounds; otherwise it clamps only the branch-selected
dimension — for aspect ratio above `1` the width is set to `max_width` and the
height stays at most `max_width`; otherwise the height is set to `max_height`
and the width stays at most `max_height`. The other dimension may exceed its
own bound and may exceed the natural size. (The original claim, that neither
returned dimension ever exceeds its bound or the natural size, is false; see
the counterexample.) -/
theorem claim_c5_fit_clamps_branch_dimension (w h mw mh : Nat) (hh : 0 < h) :
    ((w ≤ mw ∧ h ≤ mh) → resize_image w h mw mh = (w, h)) ∧
    ((mw < w ∨ mh < h) →
      ((h < w → (resize_image w h mw mh).1 = mw ∧ (resize_image w h mw mh).2 ≤ mw) ∧
       (w ≤ h → (resize_image w h mw mh).2 = mh ∧ (resize_image w h mw mh).1 ≤ mh))) := by
  have hq : (0 : ℚ) < (h : ℚ) := by exact_mod_cast hh
  constructor
  · rintro ⟨h1, h2⟩
    unfold resize_image
    rw [if_neg (by rw [not_or]; exact ⟨not_lt.mpr h1, not_lt.mpr h2⟩)]
  · intro hbig
    constructor
    · intro hlt
      have hasp : 1 < (w : ℚ) / (h : ℚ) := (one_lt_div hq).mpr (by exact_mod_cast hlt)
      unfold resize_image
      rw [if_pos hbig, if_pos hasp]
      refine ⟨rfl, ?_⟩
      have hle : (mw : ℚ) / ((w : ℚ) / (h : ℚ)) ≤ (mw : ℚ) :=
        div_le_self (by positivity) hasp.le
      have hfl : ⌊(mw : ℚ) / ((w : ℚ) / (h : ℚ))⌋ ≤ (mw : ℤ) := by
        have hmono := Int.floor_le_floor hle
        rwa [Int.floor_natCast] at hmono
      exact Int.toNat_le.mpr hfl
    · intro hwle
      have hasp : ¬ 1 < (w : ℚ) / (h : ℚ) := by
        rw [not_lt]
        exact (div_le_one hq).mpr (by exact_mod_cast hwle)
      unfold resize_image
      rw [if_pos hbig, if_neg hasp]
      refine ⟨rfl, ?_⟩
      have hone : (w : ℚ) / (h : ℚ) ≤ 1 := (div_le_one hq).mpr (by exact_mod_cast hwle)
      have hmul : (mh : ℚ) * ((w : ℚ) / (h : ℚ)) ≤ (mh : ℚ) := by
        calc (mh : ℚ) * ((w : ℚ) / (h : ℚ)) ≤ (mh : ℚ) * 1 :=
              mul_le_mul_of_nonneg_left hone (by positivity)
          _ = (mh : ℚ) := mul_one _
      have hfl : ⌊(mh : ℚ) * ((w : ℚ) / (h : ℚ))⌋ ≤ (mh : ℤ) := by
        have hmono := Int.floor_le_floor hmul
        rwa [Int.floor_natCast] at hmono
      exact Int.toNat_le.mpr hfl

/-- Witness for C5 at a concrete scaled input: the width branch clamps the
width to `max_width` and keeps the height at most `max_width`. -/
theorem claim_c5_witness :
    (resize_image 300 290 220 180).1 = 220 ∧ (resize_image 300 290 220 180).2 ≤ 220 :=
  ((claim_c5_fit_clamps_branch_dimension 300 290 220 180 (by norm_num)).2
    (Or.inl (by norm_num))).1 (by norm_num)

/-- Counterexample to C5 as stated: `resize_image 300 290 220 180 = (220, 212)`
returns a height above the bound `180`, and `resize_image 100 10 220 5 =
(220, 22)` returns a width above the natural width `100` (it scales up). -/
theorem claim_c5_counterexample :
    180 < (resize_image 300 290 220 180).2 ∧ 100 < (resize_image 100 10 220 5).1 := by
  rw [resize_300_290, resize_100_10]
  exact ⟨by decide, by decide⟩

/-- C6 (amended): a square input (aspect ratio exactly `1`) that exceeds a
bound takes the height-constrained branch — the result is `(max_height,
max_height)`, determined by `max_height`, because the code's test is the
strict `aspect_ratio > 1`. (The original claim said the width-constrained
branch is used; see the counterexample.) -/
theorem claim_c6_square_height_branch (w mw mh : Nat) (hw : 0 < w)
    (hbig : mw < w ∨ mh < w) : resize_image w w mw mh = (mh, mh) := by
  have hq : ((w : ℚ)) ≠ 0 := by exact_mod_cast hw.ne'
  unfold resize_image
  rw [if_pos hbig, div_self hq, if_neg (lt_irrefl (1 : ℚ)), mul_one, Int.floor_natCast]
  rfl

/-- Witness for C6 at a concrete square input. -/
theorem claim_c6_witness : resize_image 300 300 220 180 = (180, 180) :=
  claim_c6_square_height_branch 300 220 180 (by norm_num) (Or.inl (by norm_num))

/-- Counterexample to C6 as stated: the oversized square `300 × 300` with
bounds `(220, 180)` yields `(180, 180)` — the height-constrained result — and
its width is not the `max_width` `220` the width-constrained branch would
give. -/
theorem claim_c6_counterexample :
    resize_image 300 300 220 180 = (180, 180) ∧
    (resize_image 300 300 220 180).1 ≠ 220 := by
  have he : resize_image 300 300 220 180 = (180, 180) := by
    have hq : (((300 : Nat) : ℚ)) ≠ 0 := by norm_num
    unfold resize_image
    rw [if_pos (Or.inl (by norm_num) : (220 : Nat) < 300 ∨ (180 : Nat) < 300),
      div_self hq, if_neg (lt_irrefl (1 : ℚ)), mul_one, Int.floor_natCast]
    rfl
  exact ⟨he, by rw [he]; decide⟩

/-- C7 (amended): with `items_per_row = 2`, indices `2k` and `2k + 1` share a
row (equal top), every index shares its column (equal left) with `index + 2`,
and `row = index div 2`, `col = index mod 2`. (The original claim that every
`index` and `index + 1` share a row fails for odd `index`; see the
counterexample.) -/
theorem claim_c7_grid_rows_columns (k i : Nat) (lm tm sx sy : ℚ) :
    (grid_position (2*k) 2 lm tm sx sy).2 = (grid_position (2*k+1) 2 lm tm sx sy).2 ∧
    (grid_position i 2 lm tm sx sy).1 = (grid_position (i+2) 2 lm tm sx sy).1 ∧
    grid_position i 2 lm tm sx sy
      = (lm + ((i % 2 : Nat) : ℚ) * sx, tm + ((i / 2 : Nat) : ℚ) * sy) := by
  refine ⟨?_, ?_, rfl⟩
  · show tm + (((2*k) / 2 : Nat) : ℚ) * sy = tm + (((2*k+1) / 2 : Nat) : ℚ) * sy
    have hrow : (2*k) / 2 = (2*k+1) / 2 := by omega
    rw [hrow]
  · show lm + ((i % 2 : Nat) : ℚ) * sx = lm + (((i+2) % 2 : Nat) : ℚ) * sx
    have hcol : i % 2 = (i+2) % 2 := by omega
    rw [hcol]

/-- Counterexample to C7 as stated: with the CTR grid parameters, index `1`
(row 0) and index `2` (row 1) do not share a top coordinate. -/
theorem claim_c7_counterexample :
    (grid_position 1 2 1 1 5 (14/5)).2 ≠ (grid_position 2 2 1 1 5 (14/5)).2 := by
  unfold grid_position
  norm_num

/-! Concrete dataset and asset set used for the assembler evaluations. -/

/-- Rows `["A", "B", "A"]`: two distinct variants, with variant `"A"` split
across two rows. -/
def rowsABA : List Row :=
  [⟨"A", 150, 10000, 0, 0⟩, ⟨"B", 7, 100, 0, 0⟩, ⟨"A", 30, 2000, 0, 0⟩]

/-- A one-image asset set whose key matches variant `"A"` only. -/
def imgsA : List (String × ImgSize) := [("a", ⟨100, 100⟩)]

theorem metricsABA_A : calculate_metrics rowsABA "A" .ctr = (180, 12000, 3/200) := by
  have hf : List.filter (fun r => r.variant == "A") rowsABA
      = [⟨"A", 150, 10000, 0, 0⟩, ⟨"A", 30, 2000, 0, 0⟩] := by decide
  unfold calculate_metrics
  dsimp only
  rw [hf]
  norm_num [List.map_cons, List.map_nil, List.sum_cons, List.sum_nil]

theorem metricsABA_B : calculate_metrics rowsABA "B" .ctr = (7, 100, 7/100) := by
  have hf : List.filter (fun r => r.variant == "B") rowsABA
      = [⟨"B", 7, 100, 0, 0⟩] := by decide
  unfold calculate_metrics
  dsimp only
  rw [hf]
  norm_num [List.map_cons, List.map_nil, List.sum_cons, List.sum_nil]

theorem gridpos_ctr_0 :
    grid_position 0 2 1 (top_margin .ctr) (spacing_x .ctr) (spacing_y .ctr) = (1, 1) := by
  unfold grid_position top_margin spacing_x spacing_y
  norm_num

theorem gridpos_ctr_1 :
    grid_position 1 2 1 (top_margin .ctr) (spacing_x .ctr) (spacing_y .ctr) = (6, 1) := by
  unfold grid_position top_margin spacing_x spacing_y
  norm_num

/-- C1: with an empty asset set the matcher returns no asset for any variant,
but instead of emitting every entry with the asset absent, the loop body
raises `UnboundLocalError` reading the never-assigned `image_height`, the
per-variant handler swallows it, and no entry at all is produced — for every
dataset and report kind the emitted entry list is empty, while the variant
list is not. -/
theorem claim_c1_empty_assets_drop_entries :
    (∀ (df : List Row) (rt : ReportType), create_ppt_entries df [] rt = []) ∧
    uniqueFirst (List.map Row.variant
      [({ variant := "Holiday_Banner", clickThroughs := 150, impressions := 10000,
          videoStart := 0, videoComplete := 0 } : Row)]) = ["Holiday_Banner"] :=
  ⟨create_ppt_entries_empty_images, by decide⟩

/-- C9: with empty assets, rows `["A", "B", "A"]` produce no entries at all
(the `image_height` fault), not the two claimed entries; when an asset
matches the first variant, exactly two entries are produced in
first-appearance order `["A", "B"]`, with `A`'s metrics aggregated across its
two rows and `B`'s entry present without an asset. -/
theorem claim_c9_order_and_aggregation :
    create_ppt_entries rowsABA [] .ctr = [] ∧
    create_ppt_entries rowsABA imgsA .ctr
      = [{ variant := "A", asset := some "a", metrics := (180, 12000, 3/200),
           position := (1, 1) },
         { variant := "B", asset := none, metrics := (7, 100, 7/100),
           position := (6, 1) }] := by
  refine ⟨create_ppt_entries_empty_images rowsABA .ctr, ?_⟩
  have hkeys : List.map Prod.fst imgsA = ["a"] := rfl
  have hA1 : (find_best_matching_image "A" (List.map Prod.fst imgsA) (3/5)).1
      = some "a" := by
    rw [hkeys, find_best_A_a]
  have hB1 : (find_best_matching_image "B" (List.map Prod.fst imgsA) (3/5)).1
      = none := by
    rw [hkeys, find_best_B_a]
  have hu : uniqueFirst (List.map Row.variant rowsABA) = ["A", "B"] := by decide
  have hnext : nextImageHeight imgsA (some "a") none = some 100 := by
    rw [nextImageHeight_matched imgsA "a" ⟨100, 100⟩ none (by decide) (by decide),
      resize_100_100]
  rw [create_ppt_entries, hu]
  simp only [entriesLoop]
  rw [hA1, hB1, hnext]
  dsimp only [nextImageHeight_none]
  rw [metricsABA_A, metricsABA_B, gridpos_ctr_0]
  rw [show (0 + 1 : Nat) = 1 from rfl, gridpos_ctr_1]
